import Mathlib

/-!
Shallow embedding of the AI Smart Reader application
(src/App.tsx together with its services in src/services/geminiService.ts,
the pdf service, the HighlightableText component and src/types.ts).

The React component's state and refs are modelled as one explicit record
`AppState`; user interactions and browser callbacks (utterance boundary and
end events, buffer-source end events, the scheduled preload timer) become
events of a step relation.  External services (pdf.js text extraction, the
Gemini speech and OCR calls) are modelled by data carried in the events:
a speech-generation result arrives as an `Option AudioBuffer`, where `none`
means the promise rejected.  JavaScript strings are modelled as `String`
with one `Char` per UTF-16 unit, and whitespace/trim/substring operations
are spelled out on the underlying character lists so that they evaluate
inside the kernel.
-/

namespace WillReader

/-- Reader modes, from the `ReaderMode` enum in src/types.ts. -/
inductive ReaderMode where
  | IDLE
  | NATIVE_TTS
  | GEMINI_TTS
deriving DecidableEq, Repr

/-- A Web Audio `AudioBuffer`: an identity tag plus its duration in
seconds (as a rational). -/
structure AudioBuffer where
  id : Nat
  duration : ℚ
deriving DecidableEq, Repr

/-- A loaded PDF document: each page is the list of text items that
pdf.js `getTextContent()` would return for it (`item.str` values).
`numPages` is the number of pages. -/
structure PDFDoc where
  pages : List (List String)
deriving DecidableEq, Repr

def PDFDoc.numPages (d : PDFDoc) : Nat := d.pages.length

/-- Result of text extraction, from the `PDFPageText` interface in
src/types.ts. -/
structure PDFPageText where
  pageNumber : Nat
  text : String
  isScanned : Bool
deriving DecidableEq, Repr

/-- Character-list version of JavaScript `String.prototype.trim`. -/
def trimChars (l : List Char) : List Char :=
  ((l.dropWhile Char.isWhitespace).reverse.dropWhile Char.isWhitespace).reverse

/-- JavaScript `text.trim()` on the string model. -/
def jsTrim (s : String) : String := String.mk (trimChars s.data)

/-- Join character lists with a single space between consecutive entries,
like JavaScript `Array.prototype.join(' ')` (empty entries are kept). -/
def joinWithSpace : List (List Char) → List Char
  | [] => []
  | [w] => w
  | w :: ws => w ++ ' ' :: joinWithSpace ws

/-- JavaScript `items.join(' ')` for the extracted text items. -/
def joinItems (items : List String) : String :=
  String.mk (joinWithSpace (items.map String.data))

/-- Splits a character list into its maximal whitespace-free words
(the accumulator holds the current word reversed). -/
def wordsAux : List Char → List Char → List (List Char)
  | [], acc => if acc = [] then [] else [acc.reverse]
  | c :: cs, acc =>
    if Char.isWhitespace c then
      if acc = [] then wordsAux cs [] else acc.reverse :: wordsAux cs []
    else wordsAux cs (c :: acc)

/-- JavaScript `text.replace(/\s+/g, ' ').trim()`, the cleanup applied to
every extracted page text in App.tsx: runs of whitespace collapse to a
single space and outer whitespace disappears, which equals joining the
whitespace-free words of the text with single spaces. -/
def cleanupText (s : String) : String :=
  String.mk (joinWithSpace (wordsAux s.data []))

/-- JavaScript `text.substring(n)` (drop the first `n` UTF-16 units). -/
def jsSubstringFrom (s : String) (n : Nat) : String :=
  String.mk (s.data.drop n)

/-- The truncation `text.substring(0, 2000)` performed by `generateSpeech`
in src/services/geminiService.ts before building the prompt. -/
def safeText (text : String) : String :=
  String.mk (text.data.take 2000)

/-- The literal prompt text that `generateSpeech` sends to the TTS model:
the fixed instruction followed by the truncated input. -/
def generateSpeechPrompt (text : String) : String :=
  String.mk (("Read this text clearly and naturally: ").data ++ (safeText text).data)

/-- pdfService.extractTextFromPage: joins the page's text items with
spaces and flags the page as scanned exactly when the trimmed joined text
has length below 5. -/
def extractTextFromPage (d : PDFDoc) (pageNumber : Nat) : PDFPageText :=
  let textItems := joinItems (d.pages.getD (pageNumber - 1) [])
  { pageNumber := pageNumber
    text := textItems
    isScanned := decide ((jsTrim textItems).length < 5) }

/-! ### HighlightableText: sentence segmentation and highlighting -/

/-- A sentence segment with its index range, from the `SentenceSegment`
interface in HighlightableText. -/
structure Segment where
  text : String
  start : Nat
  stop : Nat
deriving DecidableEq, Repr

/-- The characters matched by the class `[.!?]` of the sentence-splitting
regular expression in HighlightableText. -/
def isPunc (c : Char) : Bool := c = '.' || c = '!' || c = '?'

/-- Finds the first match of the delimiter pattern `[.!?]+[\s\n]+`:
returns the text before the match, the matched delimiter and the rest.
A greedy punctuation run only matches when whitespace follows it. -/
def findDelim : List Char → Option (List Char × List Char × List Char)
  | [] => none
  | c :: cs =>
    if isPunc c then
      let punc := (c :: cs).takeWhile isPunc
      let rest1 := (c :: cs).dropWhile isPunc
      let ws := rest1.takeWhile Char.isWhitespace
      let rest2 := rest1.dropWhile Char.isWhitespace
      if ws = [] then
        match findDelim cs with
        | some (b, d, r) => some (c :: b, d, r)
        | none => none
      else
        some ([], punc ++ ws, rest2)
    else
      match findDelim cs with
      | some (b, d, r) => some (c :: b, d, r)
      | none => none

/-- Rebuilds the sentence segments of a text with their index ranges, as
the `useMemo` block of HighlightableText does: each segment is a sentence
body together with its trailing delimiter, and a final whitespace-only
remainder is skipped.  `fuel` bounds the recursion depth. -/
def mkSegments : Nat → List Char → Nat → List Segment
  | 0, _, _ => []
  | Nat.succ fuel, s, idx =>
    match findDelim s with
    | some (b, d, r) =>
      let full := b ++ d
      ⟨String.mk full, idx, idx + full.length⟩ :: mkSegments fuel r (idx + full.length)
    | none =>
      if (jsTrim (String.mk s)) = "" then []
      else [⟨String.mk s, idx, idx + s.length⟩]

/-- The sentence segments of a page text. -/
def segmentsOf (text : String) : List Segment :=
  mkSegments (text.data.length + 1) text.data 0

/-- The `currentInfo` prop passed to HighlightableText. -/
structure CurrentInfo where
  charIndex : Nat
  isActive : Bool
deriving DecidableEq, Repr

/-- How App.tsx builds the `currentInfo` prop: the highlight index together
with `isPlaying && readerMode === ReaderMode.NATIVE_TTS`. -/
def AppCurrentInfo (highlightIndex : Nat) (isPlaying : Bool) (readerMode : ReaderMode) :
    CurrentInfo :=
  { charIndex := highlightIndex
    isActive := isPlaying && decide (readerMode = ReaderMode.NATIVE_TTS) }

/-- The `isCurrent` test of HighlightableText: the segment is marked
current when highlighting is active and the spoken character index falls
inside the segment's range. -/
def isCurrent (info : CurrentInfo) (seg : Segment) : Bool :=
  info.isActive && decide (seg.start ≤ info.charIndex) && decide (info.charIndex < seg.stop)

/-! ### The App component's state -/

/-- A `SpeechSynthesisUtterance` as prepared by `prepareNativeTTS`:
its text (already sliced from `startOffset`), the rate it was given, and
the page offset its boundary indices are relative to. -/
structure Utterance where
  text : String
  rate : ℚ
  startOffset : Nat
deriving DecidableEq, Repr

/-- An `AudioBufferSourceNode` created by `playAudioBuffer`. -/
structure AudioSource where
  buffer : AudioBuffer
  rate : ℚ
deriving DecidableEq, Repr

/-- An entry of `nextPageAudioCacheRef`. -/
structure CacheEntry where
  page : Nat
  buffer : AudioBuffer
deriving DecidableEq, Repr

/-- The whole React component state: useState hooks, refs, and the
observable state of the two audio back ends (the speech-synthesis queue
and the Web Audio context). -/
structure AppState where
  pdfDoc : Option PDFDoc
  currentPageNum : Nat
  textContent : String
  isTextScanned : Bool
  isLoading : Bool
  isGeneratingAI : Bool
  error : Option String
  readerMode : ReaderMode
  isPlaying : Bool
  playbackRate : ℚ
  highlightIndex : Nat
  autoPlay : Bool
  previousMode : ReaderMode
  cache : Option CacheEntry
  preloadTimeout : Option (Nat × ℚ)
  utterance : Option Utterance
  currentTextOffset : Nat
  lastKnownCharIndex : Nat
  synthSpeaking : Bool
  synthPaused : Bool
  ctxExists : Bool
  ctxSuspended : Bool
  audioSource : Option AudioSource
  audioBuffer : Option AudioBuffer
deriving DecidableEq, Repr

/-- Externally visible side effects of the handlers.  `requestSpeech t`
records a call of `generateSpeech t`, `schedulePreload p d` a
`setTimeout` of the preload of page `p` after `d` milliseconds. -/
inductive Action where
  | cancelSynth
  | speak (u : Utterance)
  | pauseSynth
  | resumeSynth
  | stopSource
  | startSource (src : AudioSource)
  | resumeCtx
  | suspendCtx
  | requestSpeech (text : String)
  | requestOCR
  | schedulePreload (page : Nat) (delayMs : ℚ)
  | clearPreload
deriving DecidableEq, Repr

/-! ### The handlers of App.tsx -/

/-- stopAllAudio: cancel native speech if it is speaking, stop and drop
the buffer source with its `onended` handler detached, clear the pending
preload timer, and mark playback stopped. -/
def stopAllAudio (s : AppState) : AppState × List Action :=
  let r1 : AppState × List Action :=
    if s.synthSpeaking then
      ({ s with synthSpeaking := false, synthPaused := false }, [Action.cancelSynth])
    else (s, [])
  let r2 : AppState × List Action :=
    match r1.1.audioSource with
    | some _ => ({ r1.1 with audioSource := none }, r1.2 ++ [Action.stopSource])
    | none => r1
  let r3 : AppState × List Action :=
    match r2.1.preloadTimeout with
    | some _ => ({ r2.1 with preloadTimeout := none }, r2.2 ++ [Action.clearPreload])
    | none => r2
  ({ r3.1 with isPlaying := false }, r3.2)

/-- prepareNativeTTS: cancel pending speech, build an utterance for the
page text from `startOffset` on, remember it, switch to the native mode
and optionally start speaking.  `closureRate` is the `playbackRate` that
the `useCallback` closure captured when it was created (the utterance
rate is read from the render that defined the callback, not from the
state store at call time). -/
def prepareNativeTTS (closureRate : ℚ) (s : AppState) (text : String)
    (autoStart : Bool) (startOffset : Nat) : AppState × List Action :=
  if text = "" then (s, [])
  else
    let s1 : AppState := { s with synthSpeaking := false, synthPaused := false }
    let textToSpeak := if 0 < startOffset then jsSubstringFrom text startOffset else text
    let utt : Utterance := { text := textToSpeak, rate := closureRate, startOffset := startOffset }
    let s2 : AppState :=
      { s1 with utterance := some utt
                readerMode := ReaderMode.NATIVE_TTS
                previousMode := ReaderMode.NATIVE_TTS }
    if autoStart then
      ({ s2 with isPlaying := true, synthSpeaking := true },
       [Action.cancelSynth, Action.speak utt])
    else
      ({ s2 with isPlaying := false }, [Action.cancelSynth])

/-- playAudioBuffer: make sure the audio context exists and is running,
start a new buffer source at the closure's playback rate, and, when the
played page is not the last one, schedule the preload of the next page
after half of the buffer's duration divided by the playback rate. -/
def playAudioBuffer (closureRate : ℚ) (s : AppState) (buffer : AudioBuffer)
    (pageForAudio : Nat) (doc : PDFDoc) : AppState × List Action :=
  let ctxActs : List Action :=
    if s.ctxExists && s.ctxSuspended then [Action.resumeCtx] else []
  let src : AudioSource := { buffer := buffer, rate := closureRate }
  let s1 : AppState :=
    { s with ctxExists := true, ctxSuspended := false, audioSource := some src }
  if pageForAudio < doc.numPages then
    let delayMs : ℚ := buffer.duration * 1000 / 2 / closureRate
    ({ s1 with preloadTimeout := some (pageForAudio + 1, delayMs) },
     ctxActs ++ [Action.startSource src, Action.schedulePreload (pageForAudio + 1) delayMs])
  else
    (s1, ctxActs ++ [Action.startSource src])

/-- handleGeminiTTS: switch to the Gemini mode, stop all audio, call
`generateSpeech` on the text; on success remember the buffer and play it
for the given page, on failure record the error and fall back to native
speech of the same text; the loading flags clear in both cases.
`gen` is the outcome of the `generateSpeech` promise. -/
def handleGeminiTTS (s : AppState) (textToRead : String) (pageNum : Nat)
    (gen : Option AudioBuffer) : AppState × List Action :=
  if textToRead = "" then
    ({ s with error := some "No text content to read." }, [])
  else
    let s1 : AppState :=
      { s with readerMode := ReaderMode.GEMINI_TTS
               previousMode := ReaderMode.GEMINI_TTS
               isGeneratingAI := true }
    let r2 := stopAllAudio s1
    match gen with
    | some buffer =>
      let s3 : AppState := { r2.1 with audioBuffer := some buffer }
      let r4 : AppState × List Action :=
        match s3.pdfDoc with
        | some doc => playAudioBuffer s.playbackRate s3 buffer pageNum doc
        | none => (s3, [])
      ({ r4.1 with isPlaying := true, isGeneratingAI := false, isLoading := false },
       r2.2 ++ [Action.requestSpeech textToRead] ++ r4.2)
    | none =>
      let s3 : AppState := { r2.1 with error := some "Failed to generate AI speech" }
      let r4 := prepareNativeTTS s.playbackRate s3 textToRead true 0
      ({ r4.1 with isGeneratingAI := false, isLoading := false },
       r2.2 ++ [Action.requestSpeech textToRead] ++ r4.2)

/-- preloadNextPageAudio: do nothing when the page is beyond the document
or already cached; extract and clean the page text, skip empty or scanned
pages; otherwise generate speech and, on success, store the buffer in the
cache (a failure is swallowed). -/
def preloadNextPageAudio (s : AppState) (nextPageNum : Nat) (doc : PDFDoc)
    (gen : Option AudioBuffer) : AppState × List Action :=
  if doc.numPages < nextPageNum then (s, [])
  else if (s.cache.map CacheEntry.page) = some nextPageNum then (s, [])
  else
    let extracted := extractTextFromPage doc nextPageNum
    let cleanText := cleanupText extracted.text
    if cleanText = "" ∨ extracted.isScanned then (s, [])
    else
      match gen with
      | some buffer =>
        ({ s with cache := some { page := nextPageNum, buffer := buffer } },
         [Action.requestSpeech cleanText])
      | none => (s, [Action.requestSpeech cleanText])

/-- processPage: stop the previous page's audio, reset the per-page
tracking state, extract and clean the page text; a scanned page only sets
the scanned flag and goes idle; otherwise, on an automatic transition the
previous mode decides between playing the cached buffer (consuming the
cache), generating fresh Gemini audio, or starting native speech; without
auto-play the native utterance is prepared but not started. -/
def processPage (s : AppState) (pageNum : Nat) (doc : PDFDoc)
    (gen : Option AudioBuffer) : AppState × List Action :=
  let s0 : AppState := { s with isLoading := true }
  let r1 := stopAllAudio s0
  let s2 : AppState :=
    { r1.1 with highlightIndex := 0, currentTextOffset := 0, lastKnownCharIndex := 0,
                textContent := "", isTextScanned := false, audioBuffer := none }
  let extracted := extractTextFromPage doc pageNum
  let cleanText := cleanupText extracted.text
  let s3 : AppState := { s2 with textContent := cleanText }
  if extracted.isScanned then
    ({ s3 with isTextScanned := true, readerMode := ReaderMode.IDLE, isLoading := false },
     r1.2)
  else
    if s3.autoPlay ∧ 0 < cleanText.length then
      if s3.previousMode = ReaderMode.GEMINI_TTS then
        match s3.cache with
        | some entry =>
          if entry.page = pageNum then
            let s4 : AppState :=
              { s3 with cache := none, readerMode := ReaderMode.GEMINI_TTS,
                        audioBuffer := some entry.buffer }
            let r5 := playAudioBuffer s.playbackRate s4 entry.buffer pageNum doc
            ({ r5.1 with isPlaying := true, isLoading := false }, r1.2 ++ r5.2)
          else
            let r5 := handleGeminiTTS s3 cleanText pageNum gen
            (r5.1, r1.2 ++ r5.2)
        | none =>
          let r5 := handleGeminiTTS s3 cleanText pageNum gen
          (r5.1, r1.2 ++ r5.2)
      else
        let r5 := prepareNativeTTS s.playbackRate s3 cleanText true 0
        ({ r5.1 with isLoading := false }, r1.2 ++ r5.2)
    else
      let r5 := prepareNativeTTS s.playbackRate s3 cleanText false 0
      ({ r5.1 with isLoading := false }, r1.2 ++ r5.2)

/-- The `onAudioEnded` logic followed by the page effect: when more pages
remain, set the auto-play intent, advance the page and process it;
otherwise stop and reset to idle. -/
def afterAudioEnd (s : AppState) (gen : Option AudioBuffer) : AppState × List Action :=
  match s.pdfDoc with
  | some doc =>
    if s.currentPageNum < doc.numPages then
      let s1 : AppState := { s with autoPlay := true, currentPageNum := s.currentPageNum + 1 }
      processPage s1 (s.currentPageNum + 1) doc gen
    else
      ({ s with isPlaying := false, readerMode := ReaderMode.IDLE, highlightIndex := 0,
                currentTextOffset := 0, autoPlay := false }, [])
  | none =>
    ({ s with isPlaying := false, readerMode := ReaderMode.IDLE, highlightIndex := 0,
              currentTextOffset := 0, autoPlay := false }, [])

/-- togglePlayPause: pause or resume the backend selected by the current
reader mode, restarting or regenerating audio when it was lost. -/
def togglePlayPause (s : AppState) (gen : Option AudioBuffer) : AppState × List Action :=
  if s.isPlaying then
    if s.readerMode = ReaderMode.NATIVE_TTS then
      ({ s with synthPaused := true, isPlaying := false }, [Action.pauseSynth])
    else if s.readerMode = ReaderMode.GEMINI_TTS then
      let r1 : AppState × List Action :=
        if s.ctxExists then ({ s with ctxSuspended := true }, [Action.suspendCtx])
        else (s, [])
      let r2 : AppState × List Action :=
        match r1.1.preloadTimeout with
        | some _ => ({ r1.1 with preloadTimeout := none }, r1.2 ++ [Action.clearPreload])
        | none => r1
      ({ r2.1 with isPlaying := false }, r2.2)
    else
      ({ s with isPlaying := false }, [])
  else
    if s.readerMode = ReaderMode.NATIVE_TTS then
      if s.synthPaused then
        ({ s with synthPaused := false, isPlaying := true }, [Action.resumeSynth])
      else
        let r := prepareNativeTTS s.playbackRate s s.textContent true s.currentTextOffset
        ({ r.1 with isPlaying := true }, r.2)
    else if s.readerMode = ReaderMode.GEMINI_TTS then
      if s.ctxExists ∧ s.ctxSuspended then
        ({ s with ctxSuspended := false, isPlaying := true }, [Action.resumeCtx])
      else
        match s.audioBuffer, s.audioSource, s.pdfDoc with
        | some buffer, none, some doc =>
          let r := playAudioBuffer s.playbackRate s buffer s.currentPageNum doc
          ({ r.1 with isPlaying := true }, r.2)
        | none, _, _ =>
          if s.textContent = "" then ({ s with isPlaying := true }, [])
          else
            let r := handleGeminiTTS s s.textContent s.currentPageNum gen
            ({ r.1 with isPlaying := true }, r.2)
        | _, _, _ => ({ s with isPlaying := true }, [])
    else
      ({ s with isPlaying := true }, [])

/-- handleRateChange: store the new rate; during active native speech,
cancel and restart from the last known character index (the restarted
utterance still uses the rate captured by the `prepareNativeTTS` closure,
which is the rate from before this change); during Gemini playback just
retune the live source. -/
def handleRateChange (s : AppState) (rate : ℚ) : AppState × List Action :=
  let s0 : AppState := { s with playbackRate := rate }
  if s.readerMode = ReaderMode.NATIVE_TTS ∧ s.isPlaying then
    if s.synthSpeaking then
      let resumeIndex := s.lastKnownCharIndex
      let s1 : AppState := { s0 with currentTextOffset := resumeIndex }
      prepareNativeTTS s.playbackRate s1 s.textContent true resumeIndex
    else (s0, [])
  else if s.readerMode = ReaderMode.GEMINI_TTS then
    match s0.audioSource with
    | some src => ({ s0 with audioSource := some { src with rate := rate } }, [])
    | none => (s0, [])
  else (s0, [])

/-- handleOCR: run OCR on the rendered canvas; on success the result
becomes the page text, the scanned flag clears and a native utterance is
prepared without auto-start; on failure only the error is set.  `result`
is the outcome of the `performOCR` promise. -/
def handleOCR (s : AppState) (result : Option String) : AppState × List Action :=
  match result with
  | some text =>
    let s1 : AppState := { s with isLoading := true, textContent := text, isTextScanned := false }
    let r := prepareNativeTTS s.playbackRate s1 text false 0
    ({ r.1 with isLoading := false }, Action.requestOCR :: r.2)
  | none =>
    ({ s with error := some "OCR Failed. Please check your API Key or network." ,
              isLoading := false }, [Action.requestOCR])

/-- The `hasText` prop given to the ControlBar. -/
def hasText (s : AppState) : Bool :=
  decide (s.textContent ≠ "") && !s.isTextScanned

/-- The `isProcessing` prop given to the ControlBar. -/
def isProcessing (s : AppState) : Bool :=
  s.isLoading || s.isGeneratingAI

/-- The events that can hit the component: user interactions offered by
the UI and the browser callbacks of the audio objects.  Oracle data of the
external services rides on the event. -/
inductive Event where
  | openFile (doc : PDFDoc) (gen : Option AudioBuffer)
  | pageChange (n : Nat) (gen : Option AudioBuffer)
  | utteranceEnd (gen : Option AudioBuffer)
  | sourceEnd (gen : Option AudioBuffer)
  | boundary (charIndex : Nat)
  | toggle (gen : Option AudioBuffer)
  | rateChange (rate : ℚ)
  | ocr (result : Option String)
  | geminiButton (gen : Option AudioBuffer)
  | preloadFire (gen : Option AudioBuffer)
deriving DecidableEq, Repr

/-- One atomic step of the application: an event fires when its UI guard
(the ControlBar's render and disabled conditions) or its physical guard
(audio actually progressing) holds, and runs the corresponding handler
to completion, including the page effect it triggers. -/
def eventStep (s : AppState) : Event → Option (AppState × List Action)
  | Event.openFile doc gen =>
    let s1 : AppState := { s with isLoading := true, isGeneratingAI := false, error := none }
    let r2 := stopAllAudio s1
    let s3 : AppState :=
      { r2.1 with readerMode := ReaderMode.IDLE, previousMode := ReaderMode.IDLE,
                  cache := none, autoPlay := false, currentTextOffset := 0,
                  lastKnownCharIndex := 0, pdfDoc := some doc, currentPageNum := 1,
                  isLoading := false }
    let r4 := processPage s3 1 doc gen
    some (r4.1, r2.2 ++ r4.2)
  | Event.pageChange n gen =>
    match s.pdfDoc with
    | some doc =>
      if (n = s.currentPageNum - 1 ∨ n = s.currentPageNum + 1) ∧ 1 ≤ n ∧ n ≤ doc.numPages
          ∧ isProcessing s = false ∧ 1 ≤ s.currentPageNum then
        let s1 : AppState := { s with autoPlay := false, currentPageNum := n }
        some (processPage s1 n doc gen)
      else none
    | none => none
  | Event.utteranceEnd gen =>
    if s.synthSpeaking ∧ s.synthPaused = false ∧ s.utterance.isSome then
      some (afterAudioEnd { s with synthSpeaking := false, synthPaused := false } gen)
    else none
  | Event.sourceEnd gen =>
    match s.audioSource with
    | some _ =>
      if s.ctxSuspended then none
      else some (afterAudioEnd { s with audioSource := none } gen)
    | none => none
  | Event.boundary i =>
    match s.utterance with
    | some u =>
      if s.synthSpeaking ∧ s.synthPaused = false then
        some ({ s with highlightIndex := u.startOffset + i,
                       lastKnownCharIndex := u.startOffset + i }, [])
      else none
    | none => none
  | Event.toggle gen =>
    if s.pdfDoc.isSome ∧ hasText s ∧ isProcessing s = false then
      some (togglePlayPause s gen)
    else none
  | Event.rateChange r =>
    if s.pdfDoc.isSome ∧ hasText s ∧ (1 : ℚ)/2 ≤ r ∧ r ≤ 2 then
      some (handleRateChange s r)
    else none
  | Event.ocr result =>
    if s.pdfDoc.isSome ∧ hasText s = false ∧ isProcessing s = false then
      some (handleOCR s result)
    else none
  | Event.geminiButton gen =>
    if s.pdfDoc.isSome ∧ hasText s ∧ isProcessing s = false
        ∧ s.readerMode ≠ ReaderMode.GEMINI_TTS then
      some (handleGeminiTTS s s.textContent s.currentPageNum gen)
    else none
  | Event.preloadFire gen =>
    match s.preloadTimeout, s.pdfDoc with
    | some (p, _), some doc =>
      some (preloadNextPageAudio { s with preloadTimeout := none } p doc gen)
    | _, _ => none

/-- The state of the freshly mounted component. -/
def initState : AppState :=
  { pdfDoc := none, currentPageNum := 1, textContent := "", isTextScanned := false,
    isLoading := false, isGeneratingAI := false, error := none,
    readerMode := ReaderMode.IDLE, isPlaying := false, playbackRate := 1,
    highlightIndex := 0, autoPlay := false, previousMode := ReaderMode.IDLE,
    cache := none, preloadTimeout := none, utterance := none,
    currentTextOffset := 0, lastKnownCharIndex := 0,
    synthSpeaking := false, synthPaused := false,
    ctxExists := false, ctxSuspended := false,
    audioSource := none, audioBuffer := none }

/-- The states the application can reach from the initial state. -/
inductive Reachable : AppState → Prop where
  | init : Reachable initState
  | step {s s' : AppState} {e : Event} {as : List Action} :
      Reachable s → eventStep s e = some (s', as) → Reachable s'


/-! ### Characterization lemmas for the handlers -/

theorem stopAllAudio_fst (s : AppState) :
    (stopAllAudio s).1 =
      { s with synthSpeaking := false,
               synthPaused := if s.synthSpeaking then false else s.synthPaused,
               audioSource := none, preloadTimeout := none, isPlaying := false } := by
  unfold stopAllAudio
  by_cases h1 : s.synthSpeaking <;> cases h2 : s.audioSource <;> cases h3 : s.preloadTimeout <;>
    simp [h1, h2, h3]

theorem stopAllAudio_snd (s : AppState) :
    ∀ a ∈ (stopAllAudio s).2,
      a = Action.cancelSynth ∨ a = Action.stopSource ∨ a = Action.clearPreload := by
  unfold stopAllAudio
  by_cases h1 : s.synthSpeaking <;> cases h2 : s.audioSource <;> cases h3 : s.preloadTimeout <;>
    simp [h1, h2, h3]

theorem prepareNativeTTS_fst (cr : ℚ) (s : AppState) (text : String) (a : Bool) (off : Nat) :
    (prepareNativeTTS cr s text a off).1 =
      if text = "" then s else
      { s with synthSpeaking := a, synthPaused := false,
               utterance := some ⟨(if 0 < off then jsSubstringFrom text off else text), cr, off⟩,
               readerMode := ReaderMode.NATIVE_TTS, previousMode := ReaderMode.NATIVE_TTS,
               isPlaying := a } := by
  unfold prepareNativeTTS
  by_cases h : text = "" <;> cases a <;> simp [h]

theorem prepareNativeTTS_snd (cr : ℚ) (s : AppState) (text : String) (a : Bool) (off : Nat) :
    (prepareNativeTTS cr s text a off).2 =
      if text = "" then [] else
      if a then
        [Action.cancelSynth,
         Action.speak ⟨(if 0 < off then jsSubstringFrom text off else text), cr, off⟩]
      else [Action.cancelSynth] := by
  unfold prepareNativeTTS
  by_cases h : text = "" <;> cases a <;> simp [h]

theorem playAudioBuffer_fst (cr : ℚ) (s : AppState) (b : AudioBuffer) (p : Nat) (doc : PDFDoc) :
    (playAudioBuffer cr s b p doc).1 =
      { s with ctxExists := true, ctxSuspended := false,
               audioSource := some ⟨b, cr⟩,
               preloadTimeout :=
                 if p < doc.numPages then some (p + 1, b.duration * 1000 / 2 / cr)
                 else s.preloadTimeout } := by
  unfold playAudioBuffer
  by_cases h : p < doc.numPages <;> simp [h]

theorem playAudioBuffer_snd (cr : ℚ) (s : AppState) (b : AudioBuffer) (p : Nat) (doc : PDFDoc) :
    (playAudioBuffer cr s b p doc).2 =
      (if s.ctxExists && s.ctxSuspended then [Action.resumeCtx] else []) ++
      (Action.startSource ⟨b, cr⟩ ::
        (if p < doc.numPages
         then [Action.schedulePreload (p + 1) (b.duration * 1000 / 2 / cr)] else [])) := by
  unfold playAudioBuffer
  by_cases h : p < doc.numPages <;> simp [h]


theorem handleGeminiTTS_cache (s : AppState) (t : String) (p : Nat) (g : Option AudioBuffer) :
    (handleGeminiTTS s t p g).1.cache = s.cache := by
  unfold handleGeminiTTS
  by_cases h : t = ""
  · simp [h]
  · cases g
    · simp [h, stopAllAudio_fst, prepareNativeTTS_fst]
    · cases hd : s.pdfDoc <;> simp [h, hd, stopAllAudio_fst, playAudioBuffer_fst]

/-- C8: the cloud speech request truncates its input to the first 2000
UTF-16 units before building the prompt, so no character of the input at
index 2000 or beyond reaches the TTS model. -/
theorem c8_generateSpeech_truncates (text : String) :
    (safeText text).data = text.data.take 2000 ∧
    (safeText text).length ≤ 2000 ∧
    (generateSpeechPrompt text).data
      = ("Read this text clearly and naturally: ").data ++ text.data.take 2000 := by
  refine ⟨rfl, ?_, rfl⟩
  show (text.data.take 2000).length ≤ 2000
  simp [List.length_take]

/-- C9: when generateSpeech rejects, handleGeminiTTS records an error,
falls back to native speech synthesis of the same target text and starts
it, and the loading indicators are cleared on both the failure and the
success path. -/
theorem c9_gemini_error_fallback (s : AppState) (text : String) (p : Nat)
    (htext : text ≠ "") :
    let r := handleGeminiTTS s text p none
    r.1.error = some "Failed to generate AI speech" ∧
    r.1.readerMode = ReaderMode.NATIVE_TTS ∧
    r.1.isPlaying = true ∧
    r.1.synthSpeaking = true ∧
    r.1.utterance = some ⟨text, s.playbackRate, 0⟩ ∧
    Action.speak ⟨text, s.playbackRate, 0⟩ ∈ r.2 ∧
    r.1.isGeneratingAI = false ∧ r.1.isLoading = false ∧
    (∀ b, (handleGeminiTTS s text p (some b)).1.isGeneratingAI = false ∧
          (handleGeminiTTS s text p (some b)).1.isLoading = false) := by
  refine ⟨?_, ?_, ?_, ?_, ?_, ?_, ?_, ?_, ?_⟩ <;>
    simp [handleGeminiTTS, htext, stopAllAudio_fst, prepareNativeTTS_fst, prepareNativeTTS_snd]

theorem c9_witness :
    (handleGeminiTTS initState "Hi" 1 none).1.error = some "Failed to generate AI speech" ∧
    (handleGeminiTTS initState "Hi" 1 none).1.readerMode = ReaderMode.NATIVE_TTS ∧
    (handleGeminiTTS initState "Hi" 1 none).1.isPlaying = true := by
  have h := c9_gemini_error_fallback initState "Hi" 1 (by decide)
  exact ⟨h.1, h.2.1, h.2.2.1⟩


theorem preload_oob (s : AppState) (p : Nat) (doc : PDFDoc) (gen : Option AudioBuffer)
    (h : doc.numPages < p) : preloadNextPageAudio s p doc gen = (s, []) := by
  unfold preloadNextPageAudio; simp [h]

theorem preload_cached (s : AppState) (p : Nat) (doc : PDFDoc) (gen : Option AudioBuffer)
    (h : s.cache.map CacheEntry.page = some p) :
    preloadNextPageAudio s p doc gen = (s, []) := by
  unfold preloadNextPageAudio
  split
  · rfl
  · simp [h]

theorem preload_skip (s : AppState) (p : Nat) (doc : PDFDoc) (gen : Option AudioBuffer)
    (h : cleanupText (extractTextFromPage doc p).text = ""
         ∨ (extractTextFromPage doc p).isScanned = true) :
    preloadNextPageAudio s p doc gen = (s, []) := by
  unfold preloadNextPageAudio
  split
  · rfl
  · split
    · rfl
    · simp [h]

theorem preload_success (s : AppState) (p : Nat) (doc : PDFDoc) (b : AudioBuffer)
    (h1 : ¬ doc.numPages < p) (h2 : s.cache.map CacheEntry.page ≠ some p)
    (h3 : ¬ (cleanupText (extractTextFromPage doc p).text = ""
             ∨ (extractTextFromPage doc p).isScanned = true)) :
    preloadNextPageAudio s p doc (some b)
      = ({ s with cache := some ⟨p, b⟩ },
         [Action.requestSpeech (cleanupText (extractTextFromPage doc p).text)]) := by
  unfold preloadNextPageAudio; simp [h1, h2, h3]

theorem processPage_cacheHit (s : AppState) (p : Nat) (doc : PDFDoc) (gen : Option AudioBuffer)
    (entry : CacheEntry)
    (hscan : (extractTextFromPage doc p).isScanned = false)
    (hauto : s.autoPlay = true)
    (hlen : 0 < (cleanupText (extractTextFromPage doc p).text).length)
    (hprev : s.previousMode = ReaderMode.GEMINI_TTS)
    (hcache : s.cache = some entry)
    (hpage : entry.page = p) :
    (processPage s p doc gen).1.cache = none ∧
    (processPage s p doc gen).1.audioBuffer = some entry.buffer ∧
    (processPage s p doc gen).1.isPlaying = true ∧
    (processPage s p doc gen).1.readerMode = ReaderMode.GEMINI_TTS ∧
    (processPage s p doc gen).1.audioSource = some ⟨entry.buffer, s.playbackRate⟩ ∧
    (processPage s p doc gen).1.isLoading = false ∧
    (processPage s p doc gen).1.textContent = cleanupText (extractTextFromPage doc p).text ∧
    Action.startSource ⟨entry.buffer, s.playbackRate⟩ ∈ (processPage s p doc gen).2 ∧
    (∀ t, Action.requestSpeech t ∉ (processPage s p doc gen).2) := by
  refine ⟨?_, ?_, ?_, ?_, ?_, ?_, ?_, ?_, ?_⟩ <;>
    simp [processPage, hscan, hauto, hlen, hprev, hcache, hpage,
          stopAllAudio_fst, playAudioBuffer_fst, playAudioBuffer_snd]
  · intro t h
    rcases stopAllAudio_snd _ _ h with h' | h' | h' <;> simp_all


theorem ne_empty_of_len_pos (t : String) (h : 0 < t.length) : t ≠ "" := by
  intro h'
  subst h'
  simp at h

theorem handleGeminiTTS_requests (s : AppState) (t : String) (p : Nat) (g : Option AudioBuffer)
    (ht : t ≠ "") :
    Action.requestSpeech t ∈ (handleGeminiTTS s t p g).2 := by
  unfold handleGeminiTTS
  cases g
  · simp [ht]
  · rw [if_neg ht]
    split <;> simp

theorem processPage_cacheMiss (s : AppState) (p : Nat) (doc : PDFDoc) (gen : Option AudioBuffer)
    (hscan : (extractTextFromPage doc p).isScanned = false)
    (hauto : s.autoPlay = true)
    (hlen : 0 < (cleanupText (extractTextFromPage doc p).text).length)
    (hprev : s.previousMode = ReaderMode.GEMINI_TTS)
    (hmiss : ∀ entry, s.cache = some entry → entry.page ≠ p) :
    Action.requestSpeech (cleanupText (extractTextFromPage doc p).text)
      ∈ (processPage s p doc gen).2 := by
  cases hc : s.cache with
  | none =>
    simp only [processPage, hscan, hauto, hlen, hprev, hc, stopAllAudio_fst]
    simp [hscan, hauto, hlen, hprev]
    exact Or.inr (handleGeminiTTS_requests _ _ _ _ (ne_empty_of_len_pos _ hlen))
  | some entry =>
    have hne : entry.page ≠ p := hmiss entry hc
    simp only [processPage, hscan, hauto, hlen, hprev, hc, stopAllAudio_fst]
    simp [hscan, hauto, hlen, hprev, hne]
    exact Or.inr (handleGeminiTTS_requests _ _ _ _ (ne_empty_of_len_pos _ hlen))


theorem processPage_scanned (s : AppState) (p : Nat) (doc : PDFDoc) (gen : Option AudioBuffer)
    (hscan : (extractTextFromPage doc p).isScanned = true) :
    (processPage s p doc gen).1.readerMode = ReaderMode.IDLE ∧
    (processPage s p doc gen).1.isPlaying = false ∧
    (processPage s p doc gen).1.isTextScanned = true ∧
    (processPage s p doc gen).1.synthSpeaking = false ∧
    (processPage s p doc gen).1.audioSource = none ∧
    (∀ u, Action.speak u ∉ (processPage s p doc gen).2) ∧
    (∀ src, Action.startSource src ∉ (processPage s p doc gen).2) ∧
    (∀ t, Action.requestSpeech t ∉ (processPage s p doc gen).2) := by
  refine ⟨?_, ?_, ?_, ?_, ?_, ?_, ?_, ?_⟩ <;>
    simp [processPage, hscan, stopAllAudio_fst] <;>
    intro x h <;>
    rcases stopAllAudio_snd _ _ h with h' | h' | h' <;> simp_all

theorem processPage_nativeAuto (s : AppState) (p : Nat) (doc : PDFDoc) (gen : Option AudioBuffer)
    (hscan : (extractTextFromPage doc p).isScanned = false)
    (hauto : s.autoPlay = true)
    (hlen : 0 < (cleanupText (extractTextFromPage doc p).text).length)
    (hprev : s.previousMode ≠ ReaderMode.GEMINI_TTS) :
    (processPage s p doc gen).1.synthSpeaking = true ∧
    (processPage s p doc gen).1.isPlaying = true ∧
    (processPage s p doc gen).1.readerMode = ReaderMode.NATIVE_TTS ∧
    (processPage s p doc gen).1.utterance
      = some ⟨cleanupText (extractTextFromPage doc p).text, s.playbackRate, 0⟩ ∧
    Action.speak ⟨cleanupText (extractTextFromPage doc p).text, s.playbackRate, 0⟩
      ∈ (processPage s p doc gen).2 := by
  have hne := ne_empty_of_len_pos _ hlen
  refine ⟨?_, ?_, ?_, ?_, ?_⟩ <;>
    simp [processPage, hscan, hauto, hlen, hprev, stopAllAudio_fst,
          prepareNativeTTS_fst, prepareNativeTTS_snd, hne]

theorem processPage_cache_of_none (s : AppState) (p : Nat) (doc : PDFDoc)
    (gen : Option AudioBuffer) (h : s.cache = none) :
    (processPage s p doc gen).1.cache = none := by
  unfold processPage
  simp only [stopAllAudio_fst, h]
  split
  · simp [h]
  · split
    · split
      · simp [handleGeminiTTS_cache, h]
      · simp [prepareNativeTTS_fst, h]
        split <;> simp [h]
    · simp [prepareNativeTTS_fst, h]
      split <;> simp [h]


theorem handleOCR_supplies (s : AppState) (t : String) :
    (handleOCR s (some t)).1.textContent = t ∧
    (handleOCR s (some t)).1.isTextScanned = false ∧
    (∀ u, Action.speak u ∉ (handleOCR s (some t)).2) := by
  by_cases h : t = "" <;>
    simp [handleOCR, prepareNativeTTS_fst, prepareNativeTTS_snd, h]

/-- C7: a page is flagged as scanned exactly when the whitespace-trimmed
join of its text items has length below 5; processPage then goes idle
without starting any speech, utterance or speech-generation request; a
successful OCR pass supplies the page text, clears the scanned flag and
starts nothing by itself. -/
theorem c7_scanned_pages :
    (∀ (doc : PDFDoc) (p : Nat),
       (extractTextFromPage doc p).isScanned = true
         ↔ (jsTrim (joinItems (doc.pages.getD (p - 1) []))).length < 5) ∧
    (∀ (s : AppState) (p : Nat) (doc : PDFDoc) (gen : Option AudioBuffer),
       (extractTextFromPage doc p).isScanned = true →
       (processPage s p doc gen).1.readerMode = ReaderMode.IDLE ∧
       (processPage s p doc gen).1.isPlaying = false ∧
       (processPage s p doc gen).1.isTextScanned = true ∧
       (∀ u, Action.speak u ∉ (processPage s p doc gen).2) ∧
       (∀ src, Action.startSource src ∉ (processPage s p doc gen).2) ∧
       (∀ t, Action.requestSpeech t ∉ (processPage s p doc gen).2)) ∧
    (∀ (s : AppState) (t : String),
       (handleOCR s (some t)).1.textContent = t ∧
       (handleOCR s (some t)).1.isTextScanned = false ∧
       (∀ u, Action.speak u ∉ (handleOCR s (some t)).2)) := by
  refine ⟨?_, ?_, ?_⟩
  · intro doc p
    simp [extractTextFromPage]
  · intro s p doc gen hscan
    have h := processPage_scanned s p doc gen hscan
    exact ⟨h.1, h.2.1, h.2.2.1, h.2.2.2.2.2.1, h.2.2.2.2.2.2.1, h.2.2.2.2.2.2.2⟩
  · intro s t
    exact handleOCR_supplies s t

/-- A two-page document used by the concrete witnesses. -/
def docW : PDFDoc := ⟨[["First page has real text."], ["Second page text here."]]⟩

/-- A one-page scanned document (almost no extractable text). -/
def docScanW : PDFDoc := ⟨[["hi"]]⟩

/-- A concrete audio buffer used by the witnesses. -/
def bufW : AudioBuffer := ⟨7, 10⟩

theorem c7_witness :
    (processPage initState 1 docScanW none).1.readerMode = ReaderMode.IDLE ∧
    (processPage initState 1 docScanW none).1.isPlaying = false ∧
    (processPage initState 1 docScanW none).1.isTextScanned = true := by
  have h := c7_scanned_pages.2.1 initState 1 docScanW none (by decide)
  exact ⟨h.1, h.2.1, h.2.2.1⟩


/-- C6: playAudioBuffer schedules the preload of the next page exactly
when the played page is not the last one, with a delay of half the buffer
duration (in milliseconds) divided by the playback rate; and the preload
itself does nothing when the target page is beyond the document, already
cached, or its cleaned text is empty or flagged scanned. -/
theorem c6_prefetch_schedule :
    (∀ (cr : ℚ) (s : AppState) (b : AudioBuffer) (p : Nat) (doc : PDFDoc),
       p < doc.numPages →
       (playAudioBuffer cr s b p doc).1.preloadTimeout
         = some (p + 1, b.duration * 1000 / 2 / cr) ∧
       Action.schedulePreload (p + 1) (b.duration * 1000 / 2 / cr)
         ∈ (playAudioBuffer cr s b p doc).2) ∧
    (∀ (cr : ℚ) (s : AppState) (b : AudioBuffer) (p : Nat) (doc : PDFDoc),
       ¬ p < doc.numPages →
       (playAudioBuffer cr s b p doc).1.preloadTimeout = s.preloadTimeout ∧
       ∀ q d, Action.schedulePreload q d ∉ (playAudioBuffer cr s b p doc).2) ∧
    (∀ (s : AppState) (p : Nat) (doc : PDFDoc) (gen : Option AudioBuffer),
       doc.numPages < p → preloadNextPageAudio s p doc gen = (s, [])) ∧
    (∀ (s : AppState) (p : Nat) (doc : PDFDoc) (gen : Option AudioBuffer),
       s.cache.map CacheEntry.page = some p → preloadNextPageAudio s p doc gen = (s, [])) ∧
    (∀ (s : AppState) (p : Nat) (doc : PDFDoc) (gen : Option AudioBuffer),
       cleanupText (extractTextFromPage doc p).text = ""
         ∨ (extractTextFromPage doc p).isScanned = true →
       preloadNextPageAudio s p doc gen = (s, [])) := by
  refine ⟨?_, ?_, preload_oob, preload_cached, preload_skip⟩
  · intro cr s b p doc h
    simp [playAudioBuffer_fst, playAudioBuffer_snd, h]
  · intro cr s b p doc h
    simp [playAudioBuffer_fst, playAudioBuffer_snd, h]

theorem c6_witness :
    (playAudioBuffer 1 initState bufW 1 docW).1.preloadTimeout
      = some (2, bufW.duration * 1000 / 2 / 1) ∧
    preloadNextPageAudio initState 3 docW none = (initState, []) := by
  exact ⟨(c6_prefetch_schedule.1 1 initState bufW 1 docW (by decide)).1,
         c6_prefetch_schedule.2.2.1 initState 3 docW none (by decide)⟩

/-- C2: the prefetch cache holds at most one entry in every reachable
state; preloading an already-cached page is a no-op, a successful preload
replaces the entry, consuming the cache on an automatic page transition
empties it, and opening a new file clears it. -/
theorem c2_cache_bounded :
    (∀ s : AppState, Reachable s → s.cache.toList.length ≤ 1) ∧
    (∀ (s : AppState) (p : Nat) (doc : PDFDoc) (gen : Option AudioBuffer) (entry : CacheEntry),
       s.cache = some entry → entry.page = p →
       preloadNextPageAudio s p doc gen = (s, [])) ∧
    (∀ (s : AppState) (p : Nat) (doc : PDFDoc) (b : AudioBuffer),
       ¬ doc.numPages < p → s.cache.map CacheEntry.page ≠ some p →
       ¬ (cleanupText (extractTextFromPage doc p).text = ""
            ∨ (extractTextFromPage doc p).isScanned = true) →
       (preloadNextPageAudio s p doc (some b)).1.cache = some ⟨p, b⟩) ∧
    (∀ (s : AppState) (p : Nat) (doc : PDFDoc) (gen : Option AudioBuffer) (entry : CacheEntry),
       (extractTextFromPage doc p).isScanned = false → s.autoPlay = true →
       0 < (cleanupText (extractTextFromPage doc p).text).length →
       s.previousMode = ReaderMode.GEMINI_TTS → s.cache = some entry → entry.page = p →
       (processPage s p doc gen).1.cache = none) ∧
    (∀ (s : AppState) (doc : PDFDoc) (gen : Option AudioBuffer) (r : AppState × List Action),
       eventStep s (Event.openFile doc gen) = some r → r.1.cache = none) := by
  refine ⟨?_, ?_, ?_, ?_, ?_⟩
  · intro s _
    cases s.cache <;> simp
  · intro s p doc gen entry hc hp
    exact preload_cached s p doc gen (by simp [hc, hp])
  · intro s p doc b h1 h2 h3
    rw [preload_success s p doc b h1 h2 h3]
  · intro s p doc gen entry hscan hauto hlen hprev hc hp
    exact (processPage_cacheHit s p doc gen entry hscan hauto hlen hprev hc hp).1
  · intro s doc gen r h
    simp only [eventStep] at h
    cases h
    exact processPage_cache_of_none _ 1 doc gen rfl

/-- The state right before the automatic transition to page 2 of `docW`
with a cached buffer for page 2. -/
def sHitW : AppState :=
  { initState with pdfDoc := some docW, autoPlay := true,
                   previousMode := ReaderMode.GEMINI_TTS,
                   cache := some ⟨2, bufW⟩ }

theorem c2_witness :
    preloadNextPageAudio sHitW 2 docW none = (sHitW, []) ∧
    (processPage sHitW 2 docW none).1.cache = none := by
  exact ⟨c2_cache_bounded.2.1 sHitW 2 docW none ⟨2, bufW⟩ rfl rfl,
         c2_cache_bounded.2.2.2.1 sHitW 2 docW none ⟨2, bufW⟩ (by decide) rfl (by decide) rfl rfl rfl⟩


/-- C1: on an automatic page transition (auto-play set) to a readable
page, when the previous mode was GEMINI_TTS a cache hit plays the cached
buffer (no speech generation is requested and the entry is consumed), a
cache miss requests fresh speech for the page's cleaned text, and when
the previous mode was the native backend a native utterance for the
cleaned text is prepared and started. -/
theorem c1_auto_transition :
    ∀ (s : AppState) (p : Nat) (doc : PDFDoc) (gen : Option AudioBuffer),
      (extractTextFromPage doc p).isScanned = false →
      s.autoPlay = true →
      0 < (cleanupText (extractTextFromPage doc p).text).length →
      ((s.previousMode = ReaderMode.GEMINI_TTS →
         (∀ entry, s.cache = some entry → entry.page = p →
            (processPage s p doc gen).1.audioSource = some ⟨entry.buffer, s.playbackRate⟩ ∧
            (processPage s p doc gen).1.isPlaying = true ∧
            Action.startSource ⟨entry.buffer, s.playbackRate⟩ ∈ (processPage s p doc gen).2 ∧
            (∀ t, Action.requestSpeech t ∉ (processPage s p doc gen).2) ∧
            (processPage s p doc gen).1.cache = none) ∧
         ((∀ entry, s.cache = some entry → entry.page ≠ p) →
            Action.requestSpeech (cleanupText (extractTextFromPage doc p).text)
              ∈ (processPage s p doc gen).2)) ∧
       (s.previousMode = ReaderMode.NATIVE_TTS →
          (processPage s p doc gen).1.synthSpeaking = true ∧
          (processPage s p doc gen).1.isPlaying = true ∧
          (processPage s p doc gen).1.utterance
            = some ⟨cleanupText (extractTextFromPage doc p).text, s.playbackRate, 0⟩ ∧
          Action.speak ⟨cleanupText (extractTextFromPage doc p).text, s.playbackRate, 0⟩
            ∈ (processPage s p doc gen).2)) := by
  intro s p doc gen hscan hauto hlen
  refine ⟨fun hprev => ⟨fun entry hc hp => ?_, fun hmiss => ?_⟩, fun hprev => ?_⟩
  · have h := processPage_cacheHit s p doc gen entry hscan hauto hlen hprev hc hp
    exact ⟨h.2.2.2.2.1, h.2.2.1, h.2.2.2.2.2.2.2.1, h.2.2.2.2.2.2.2.2, h.1⟩
  · exact processPage_cacheMiss s p doc gen hscan hauto hlen hprev hmiss
  · have h := processPage_nativeAuto s p doc gen hscan hauto hlen (by simp [hprev])
    exact ⟨h.1, h.2.1, h.2.2.2.1, h.2.2.2.2⟩

theorem c1_witness :
    (processPage sHitW 2 docW none).1.audioSource = some ⟨bufW, sHitW.playbackRate⟩ ∧
    (processPage sHitW 2 docW none).1.isPlaying = true ∧
    (processPage sHitW 2 docW none).1.cache = none := by
  have h := ((c1_auto_transition sHitW 2 docW none (by decide) rfl (by decide)).1 rfl).1 ⟨2, bufW⟩ rfl rfl
  exact ⟨h.1, h.2.1, h.2.2.2.2⟩


/-- The state in the middle of native playback of a page whose text is
"Hello brave new world." at rate 1, with the last boundary event having
reported character index 6. -/
def sRateW : AppState :=
  { initState with pdfDoc := some docW, textContent := "Hello brave new world.",
                   readerMode := ReaderMode.NATIVE_TTS, isPlaying := true,
                   synthSpeaking := true, lastKnownCharIndex := 6, playbackRate := 1 }

/-- C3 (code bug): changing the rate to 2 during active native playback
does restart mid-page — the new utterance's text is the page text from
the last known character index 6 on, the resume offset is recorded, and a
later boundary event at utterance index 3 highlights page index 6 + 3 —
but the restarted utterance carries rate 1, the playbackRate captured by
the prepareNativeTTS closure before the change, not the new rate 2. -/
theorem c3_rate_change_eval :
    (handleRateChange sRateW 2).1.playbackRate = 2 ∧
    (handleRateChange sRateW 2).1.currentTextOffset = 6 ∧
    (handleRateChange sRateW 2).1.utterance = some ⟨"brave new world.", 1, 6⟩ ∧
    (handleRateChange sRateW 2).2
      = [Action.cancelSynth, Action.speak ⟨"brave new world.", 1, 6⟩] ∧
    ((handleRateChange sRateW 2).1.utterance ≠ some ⟨"brave new world.", 2, 6⟩) ∧
    (eventStep (handleRateChange sRateW 2).1 (Event.boundary 3)).map
        (fun x => x.1.highlightIndex) = some 9 := by
  decide


theorem mkSegments_start_le :
    ∀ (fuel : Nat) (s : List Char) (idx : Nat),
      ∀ seg ∈ mkSegments fuel s idx, idx ≤ seg.start := by
  intro fuel
  induction fuel with
  | zero => intro s idx seg hmem; simp [mkSegments] at hmem
  | succ n ih =>
    intro s idx seg hmem
    rw [mkSegments] at hmem
    split at hmem
    · simp only [List.mem_cons] at hmem
      rcases hmem with rfl | hmem
      · exact Nat.le_refl _
      · exact Nat.le_trans (Nat.le_add_right _ _) (ih _ _ seg hmem)
    · split at hmem
      · simp at hmem
      · simp only [List.mem_singleton] at hmem
        subst hmem
        exact Nat.le_refl _

theorem mkSegments_chain :
    ∀ (fuel : Nat) (s : List Char) (idx : Nat),
      (mkSegments fuel s idx).Pairwise (fun a b => a.stop ≤ b.start) := by
  intro fuel
  induction fuel with
  | zero => intro s idx; simp [mkSegments]
  | succ n ih =>
    intro s idx
    rw [mkSegments]
    split
    · refine List.Pairwise.cons ?_ (ih _ _)
      intro seg hmem
      exact mkSegments_start_le n _ _ seg hmem
    · split
      · exact List.Pairwise.nil
      · simp

theorem countP_le_one_chain (i : Nat) :
    ∀ l : List Segment,
      l.Pairwise (fun a b => a.stop ≤ b.start) →
      l.countP (fun seg => decide (seg.start ≤ i) && decide (i < seg.stop)) ≤ 1 := by
  intro l
  induction l with
  | nil => intro _; simp
  | cons hd tl ih =>
    intro hp
    rw [List.pairwise_cons] at hp
    rw [List.countP_cons]
    by_cases hhd : (decide (hd.start ≤ i) && decide (i < hd.stop)) = true
    · have hzero : tl.countP (fun seg => decide (seg.start ≤ i) && decide (i < seg.stop)) = 0 := by
        rw [List.countP_eq_zero]
        intro seg hmem
        have h1 : hd.stop ≤ seg.start := hp.1 seg hmem
        have h2 : i < hd.stop := by
          simp only [Bool.and_eq_true, decide_eq_true_eq] at hhd
          exact hhd.2
        simp only [Bool.and_eq_true, decide_eq_true_eq, not_and]
        intro h3
        omega
      rw [hzero, if_pos hhd]
    · rw [if_neg hhd]
      simpa using ih hp.2

theorem isCurrent_countP_le_one (info : CurrentInfo) (text : String) :
    (segmentsOf text).countP (fun seg => isCurrent info seg) ≤ 1 := by
  by_cases ha : info.isActive = true
  · have heq : (fun seg => isCurrent info seg)
        = fun seg => decide (seg.start ≤ info.charIndex) && decide (info.charIndex < seg.stop) := by
      funext seg
      simp [isCurrent, ha]
    rw [heq]
    exact countP_le_one_chain info.charIndex _ (mkSegments_chain _ _ _)
  · have hzero : (segmentsOf text).countP (fun seg => isCurrent info seg) = 0 := by
      rw [List.countP_eq_zero]
      intro seg _
      simp [isCurrent, ha]
    omega


/-- The state during cloud (Gemini) playback of a two-sentence page. -/
def sGemW : AppState :=
  { initState with pdfDoc := some docW, textContent := "Hello there. Bye.",
                   readerMode := ReaderMode.GEMINI_TTS, isPlaying := true,
                   audioSource := some ⟨bufW, 1⟩, audioBuffer := some bufW }

/-- C5 counterexample: during active cloud-TTS playback the claim fails —
the page has a sentence segment containing the tracked position 0, yet no
segment at all is marked current, because the highlight is only active
when `isPlaying && readerMode === NATIVE_TTS`. -/
theorem c5_counterexample :
    sGemW.isPlaying = true ∧
    sGemW.readerMode = ReaderMode.GEMINI_TTS ∧
    (∃ seg ∈ segmentsOf sGemW.textContent,
       seg.start ≤ sGemW.highlightIndex ∧ sGemW.highlightIndex < seg.stop) ∧
    (∀ seg ∈ segmentsOf sGemW.textContent,
       isCurrent (AppCurrentInfo sGemW.highlightIndex sGemW.isPlaying sGemW.readerMode) seg
         = false) := by
  decide

/-- C5 (amended): highlighting is synchronized with playback only for the
native backend: while native playback is active the current-info prop is
active, a boundary event tracks the spoken position as the utterance
offset plus the event's character index, at most one sentence segment is
marked current (their index ranges are disjoint), and a segment is marked
current exactly when highlighting is active and the position lies in its
range; during cloud (Gemini) playback no segment is ever marked current. -/
theorem c5_highlight_native_only :
    (∀ s : AppState, s.isPlaying = true → s.readerMode = ReaderMode.NATIVE_TTS →
       (AppCurrentInfo s.highlightIndex s.isPlaying s.readerMode).isActive = true) ∧
    (∀ (s s' : AppState) (tr : List Action) (u : Utterance) (i : Nat),
       s.utterance = some u → eventStep s (Event.boundary i) = some (s', tr) →
       s'.highlightIndex = u.startOffset + i ∧ s'.lastKnownCharIndex = u.startOffset + i) ∧
    (∀ (info : CurrentInfo) (text : String),
       (segmentsOf text).countP (fun seg => isCurrent info seg) ≤ 1) ∧
    (∀ (info : CurrentInfo) (seg : Segment),
       isCurrent info seg = true ↔
         (info.isActive = true ∧ seg.start ≤ info.charIndex ∧ info.charIndex < seg.stop)) ∧
    (∀ s : AppState, s.readerMode = ReaderMode.GEMINI_TTS →
       ∀ seg, isCurrent (AppCurrentInfo s.highlightIndex s.isPlaying s.readerMode) seg
         = false) := by
  refine ⟨?_, ?_, isCurrent_countP_le_one, ?_, ?_⟩
  · intro s h1 h2
    simp [AppCurrentInfo, h1, h2]
  · intro s s' tr u i hu hstep
    simp only [eventStep, hu] at hstep
    split at hstep
    · cases hstep
      exact ⟨rfl, rfl⟩
    · cases hstep
  · intro info seg
    simp [isCurrent, and_assoc]
  · intro s h seg
    simp [isCurrent, AppCurrentInfo, h]

theorem c5_witness :
    (AppCurrentInfo 0 true ReaderMode.NATIVE_TTS).isActive = true ∧
    (segmentsOf "Hello there. Bye.").countP
      (fun seg => isCurrent (AppCurrentInfo 0 true ReaderMode.NATIVE_TTS) seg) ≤ 1 := by
  have h := c5_highlight_native_only
  exact ⟨h.1 { initState with isPlaying := true, readerMode := ReaderMode.NATIVE_TTS,
                              highlightIndex := 0 } rfl rfl,
         h.2.2.1 (AppCurrentInfo 0 true ReaderMode.NATIVE_TTS) "Hello there. Bye."⟩


/-- The inductive invariant behind the mutual exclusion of the two audio
back ends: native speech only happens in NATIVE_TTS mode, no buffer
source survives into NATIVE_TTS mode, and a live buffer source implies
the page has usable text. -/
def InvC4 (s : AppState) : Prop :=
  (s.synthSpeaking = true → s.readerMode = ReaderMode.NATIVE_TTS) ∧
  (s.readerMode = ReaderMode.NATIVE_TTS → s.audioSource = none) ∧
  (∀ src, s.audioSource = some src → s.textContent ≠ "" ∧ s.isTextScanned = false)

theorem invC4_stopAllAudio (s : AppState) : InvC4 (stopAllAudio s).1 := by
  rw [stopAllAudio_fst]
  refine ⟨?_, ?_, ?_⟩ <;> simp

theorem invC4_prepareNativeTTS (cr : ℚ) (s : AppState) (text : String) (a : Bool) (off : Nat)
    (hsrc : s.audioSource = none) (hinv : InvC4 s) :
    InvC4 (prepareNativeTTS cr s text a off).1 := by
  rw [prepareNativeTTS_fst]
  split
  · exact hinv
  · refine ⟨?_, ?_, ?_⟩ <;> simp [hsrc]

theorem invC4_playAudioBuffer (cr : ℚ) (s : AppState) (b : AudioBuffer) (p : Nat) (doc : PDFDoc)
    (hspeak : s.synthSpeaking = false)
    (hmode : s.readerMode ≠ ReaderMode.NATIVE_TTS)
    (htext : s.textContent ≠ "")
    (hscan : s.isTextScanned = false) :
    InvC4 (playAudioBuffer cr s b p doc).1 := by
  rw [playAudioBuffer_fst]
  refine ⟨?_, ?_, ?_⟩ <;> simp [hspeak, hmode, htext, hscan]

theorem invC4_handleGeminiTTS (s : AppState) (t : String) (p : Nat) (g : Option AudioBuffer)
    (hinv : InvC4 s) (hok : t ≠ "" → s.textContent ≠ "" ∧ s.isTextScanned = false) :
    InvC4 (handleGeminiTTS s t p g).1 := by
  obtain ⟨hA, hB, hC⟩ := hinv
  unfold handleGeminiTTS
  by_cases ht : t = ""
  · simp only [ht, if_true]
    exact ⟨hA, hB, hC⟩
  · rw [if_neg ht]
    obtain ⟨htext, hscan⟩ := hok ht
    cases g with
    | none =>
      simp only [stopAllAudio_fst, prepareNativeTTS_fst, if_neg ht]
      refine ⟨?_, ?_, ?_⟩ <;> simp
    | some b =>
      cases hd : s.pdfDoc with
      | none =>
        simp only [stopAllAudio_fst, hd]
        refine ⟨?_, ?_, ?_⟩ <;> simp
      | some doc =>
        simp only [stopAllAudio_fst, playAudioBuffer_fst, hd]
        refine ⟨?_, ?_, ?_⟩ <;> simp [htext, hscan]


theorem invC4_congr (s s' : AppState)
    (h1 : s'.synthSpeaking = s.synthSpeaking) (h2 : s'.readerMode = s.readerMode)
    (h3 : s'.audioSource = s.audioSource) (h4 : s'.textContent = s.textContent)
    (h5 : s'.isTextScanned = s.isTextScanned) (hinv : InvC4 s) : InvC4 s' := by
  unfold InvC4 at *
  rw [h1, h2, h3, h4, h5]
  exact hinv

theorem invC4_processPage (s : AppState) (p : Nat) (doc : PDFDoc) (gen : Option AudioBuffer) :
    InvC4 (processPage s p doc gen).1 := by
  unfold processPage
  simp only [stopAllAudio_fst]
  split
  · refine ⟨?_, ?_, ?_⟩ <;> simp
  · split
    · rename_i hgate
      split
      · split
        · split
          · simp only [playAudioBuffer_fst]
            refine ⟨?_, ?_, ?_⟩ <;> simp [ne_empty_of_len_pos _ hgate.2]
          · exact invC4_handleGeminiTTS _ _ _ _
              ⟨by simp, by simp, by simp⟩
              (fun _ => ⟨ne_empty_of_len_pos _ hgate.2, rfl⟩)
        · exact invC4_handleGeminiTTS _ _ _ _
            ⟨by simp, by simp, by simp⟩
            (fun _ => ⟨ne_empty_of_len_pos _ hgate.2, rfl⟩)
      · simp only [prepareNativeTTS_fst]
        rw [if_neg (ne_empty_of_len_pos _ hgate.2)]
        refine ⟨?_, ?_, ?_⟩ <;> simp
    · simp only [prepareNativeTTS_fst]
      split
      · refine ⟨?_, ?_, ?_⟩ <;> simp
      · refine ⟨?_, ?_, ?_⟩ <;> simp

theorem invC4_afterAudioEnd (s : AppState) (gen : Option AudioBuffer)
    (hspeak : s.synthSpeaking = false) (hinv : InvC4 s) :
    InvC4 (afterAudioEnd s gen).1 := by
  unfold afterAudioEnd
  split
  · split
    · exact invC4_processPage _ _ _ _
    · exact ⟨by simp [hspeak], by simp, fun src hs => hinv.2.2 src hs⟩
  · exact ⟨by simp [hspeak], by simp, fun src hs => hinv.2.2 src hs⟩


theorem invC4_togglePlayPause (s : AppState) (gen : Option AudioBuffer)
    (hinv : InvC4 s) (hhas : hasText s = true) :
    InvC4 (togglePlayPause s gen).1 := by
  have htext : s.textContent ≠ "" := by
    simp only [hasText, Bool.and_eq_true, decide_eq_true_eq] at hhas
    exact hhas.1
  have hscan : s.isTextScanned = false := by
    simp only [hasText, Bool.and_eq_true, Bool.not_eq_eq_eq_not, Bool.not_true] at hhas
    exact hhas.2
  unfold togglePlayPause
  split
  · -- pause branch
    split
    · exact invC4_congr _ _ rfl rfl rfl rfl rfl hinv
    · split
      · -- gemini pause
        dsimp only
        split <;> split <;> exact invC4_congr _ _ rfl rfl rfl rfl rfl hinv
      · exact invC4_congr _ _ rfl rfl rfl rfl rfl hinv
  · -- play branch
    split
    · rename_i hmode
      split
      · exact invC4_congr _ _ rfl rfl rfl rfl rfl hinv
      · exact invC4_congr _ _ rfl rfl rfl rfl rfl
          (invC4_prepareNativeTTS _ _ _ _ _ (hinv.2.1 hmode) hinv)
    · split
      · rename_i hmode'
        have hnspeak : s.synthSpeaking = false := by
          cases hsp : s.synthSpeaking
          · rfl
          · exact absurd (hinv.1 hsp) (by simp [hmode'])
        dsimp only
        split
        · exact invC4_congr _ _ rfl rfl rfl rfl rfl hinv
        · split <;>
            first
              | exact invC4_congr _ _ rfl rfl rfl rfl rfl hinv
              | exact invC4_congr _ _ rfl rfl rfl rfl rfl
                  (invC4_playAudioBuffer _ _ _ _ _ hnspeak (by simp [hmode']) htext hscan)
              | exact invC4_congr _ _ rfl rfl rfl rfl rfl
                  (invC4_handleGeminiTTS _ _ _ _ hinv (fun _ => ⟨htext, hscan⟩))
      · exact invC4_congr _ _ rfl rfl rfl rfl rfl hinv

theorem invC4_handleRateChange (s : AppState) (rate : ℚ) (hinv : InvC4 s) :
    InvC4 (handleRateChange s rate).1 := by
  unfold handleRateChange
  split
  · rename_i hcond
    dsimp only
    split
    · exact invC4_prepareNativeTTS _ _ _ _ _ (hinv.2.1 hcond.1)
        (invC4_congr _ _ rfl rfl rfl rfl rfl hinv)
    · exact invC4_congr _ _ rfl rfl rfl rfl rfl hinv
  · split
    · rename_i hgem
      dsimp only
      split
      · rename_i src hsrc
        refine ⟨fun hsp => hinv.1 hsp, fun hm => ?_, fun src' heq => ?_⟩
        · rw [hgem] at hm
          cases hm
        · exact hinv.2.2 src hsrc
      · exact invC4_congr _ _ rfl rfl rfl rfl rfl hinv
    · exact invC4_congr _ _ rfl rfl rfl rfl rfl hinv


theorem invC4_handleOCR (s : AppState) (result : Option String)
    (hinv : InvC4 s) (hhas : hasText s = false) :
    InvC4 (handleOCR s result).1 := by
  have hsrc : s.audioSource = none := by
    cases hso : s.audioSource with
    | none => rfl
    | some src =>
      obtain ⟨ht, hs⟩ := hinv.2.2 src hso
      simp [hasText, ht, hs] at hhas
  unfold handleOCR
  cases result with
  | some t =>
    dsimp only
    exact invC4_congr _ _ rfl rfl rfl rfl rfl
      (invC4_prepareNativeTTS _ _ _ _ _ hsrc
        ⟨fun hsp => hinv.1 hsp, fun hm => hsrc, fun src heq => by rw [hsrc] at heq; cases heq⟩)
  | none =>
    exact invC4_congr _ _ rfl rfl rfl rfl rfl hinv

theorem invC4_preloadNextPageAudio (s : AppState) (p : Nat) (doc : PDFDoc)
    (gen : Option AudioBuffer) (hinv : InvC4 s) :
    InvC4 (preloadNextPageAudio s p doc gen).1 := by
  unfold preloadNextPageAudio
  split
  · exact hinv
  · split
    · exact hinv
    · dsimp only
      split
      · exact hinv
      · split
        · exact invC4_congr _ _ rfl rfl rfl rfl rfl hinv
        · exact hinv

theorem invC4_eventStep (s : AppState) (e : Event) (r : AppState × List Action)
    (h : eventStep s e = some r) (hinv : InvC4 s) : InvC4 r.1 := by
  cases e with
  | openFile doc gen =>
    simp only [eventStep] at h
    cases h
    exact invC4_processPage _ _ _ _
  | pageChange n gen =>
    simp only [eventStep] at h
    split at h
    · split at h
      · cases h
        exact invC4_processPage _ _ _ _
      · cases h
    · cases h
  | utteranceEnd gen =>
    simp only [eventStep] at h
    split at h
    · cases h
      exact invC4_afterAudioEnd _ _ rfl
        ⟨by simp, fun hm => hinv.2.1 hm, fun src hs => hinv.2.2 src hs⟩
    · cases h
  | sourceEnd gen =>
    simp only [eventStep] at h
    split at h
    · rename_i src hso
      split at h
      · cases h
      · cases h
        have hnspeak : s.synthSpeaking = false := by
          cases hsp : s.synthSpeaking
          · rfl
          · have := hinv.2.1 (hinv.1 hsp)
            rw [this] at hso
            cases hso
        exact invC4_afterAudioEnd _ _ hnspeak
          ⟨fun hsp => hinv.1 hsp, fun _ => rfl, fun src' heq => by cases heq⟩
    · cases h
  | boundary i =>
    simp only [eventStep] at h
    split at h
    · split at h
      · cases h
        exact invC4_congr _ _ rfl rfl rfl rfl rfl hinv
      · cases h
    · cases h
  | toggle gen =>
    simp only [eventStep] at h
    split at h
    · rename_i hg
      cases h
      exact invC4_togglePlayPause _ _ hinv hg.2.1
    · cases h
  | rateChange r =>
    simp only [eventStep] at h
    split at h
    · cases h
      exact invC4_handleRateChange _ _ hinv
    · cases h
  | ocr result =>
    simp only [eventStep] at h
    split at h
    · rename_i hg
      cases h
      exact invC4_handleOCR _ _ hinv hg.2.1
    · cases h
  | geminiButton gen =>
    simp only [eventStep] at h
    split at h
    · rename_i hg
      cases h
      refine invC4_handleGeminiTTS _ _ _ _ hinv (fun _ => ?_)
      have := hg.2.1
      simp only [hasText, Bool.and_eq_true, decide_eq_true_eq,
        Bool.not_eq_eq_eq_not, Bool.not_true] at this
      exact this
    · cases h
  | preloadFire gen =>
    simp only [eventStep] at h
    split at h
    · cases h
      exact invC4_preloadNextPageAudio _ _ _ _
        (invC4_congr _ _ rfl rfl rfl rfl rfl hinv)
    · cases h

theorem invC4_reachable (s : AppState) (h : Reachable s) : InvC4 s := by
  induction h with
  | init => exact ⟨by simp [initState], by simp [initState], by simp [initState]⟩
  | step hr hstep ih => exact invC4_eventStep _ _ _ hstep ih


/-- Native speech is audibly playing: the synthesizer speaks and is not
paused. -/
def nativePlaying (s : AppState) : Bool := s.synthSpeaking && !s.synthPaused

/-- The Web Audio (Gemini) backend is audibly playing: a live buffer
source exists and the audio context is not suspended. -/
def geminiPlaying (s : AppState) : Bool := s.audioSource.isSome && !s.ctxSuspended

/-- C4: the two speech backends are mutually exclusive — in no reachable
state are native speech synthesis and the Web Audio source playing at the
same time; and stopAllAudio indeed silences both backends (cancelling
native speech, dropping the source, stopping playback). -/
theorem c4_mutual_exclusion :
    (∀ s : AppState, Reachable s →
       ¬ (nativePlaying s = true ∧ geminiPlaying s = true)) ∧
    (∀ s : AppState,
       (stopAllAudio s).1.synthSpeaking = false ∧
       (stopAllAudio s).1.audioSource = none ∧
       (stopAllAudio s).1.isPlaying = false) := by
  constructor
  · intro s hreach ⟨hn, hg⟩
    obtain ⟨hA, hB, hC⟩ := invC4_reachable s hreach
    simp only [nativePlaying, Bool.and_eq_true] at hn
    simp only [geminiPlaying, Bool.and_eq_true, Option.isSome_iff_exists] at hg
    obtain ⟨⟨src, hsrc⟩, _⟩ := hg
    rw [hB (hA hn.1)] at hsrc
    cases hsrc
  · intro s
    rw [stopAllAudio_fst]
    exact ⟨rfl, rfl, rfl⟩

theorem c4_witness :
    ¬ (nativePlaying initState = true ∧ geminiPlaying initState = true) :=
  c4_mutual_exclusion.1 initState Reachable.init

end WillReader
